import Mathlib

/-!
# EtherealVault: the command-line scaffold and its logger

A shallow embedding of `internal/etherealvault/etherealvault.go` (`App`, `NewApp`,
`App.Run`), together with the parts of Go's standard packages `log`, `fmt` and
`time` that it calls, read from the Go 1.20 sources, and of the import
declarations of both source files, as the compiler checks them.  Effects are
explicit: every function that writes or reads the clock takes a `World` and returns
the `World` after it; a method with a pointer receiver also returns the receiver
after the call.
-/

namespace EtherealVault

/-! ## The process environment -/

/-- Calendar reading of an instant, as returned by Go's `Time.Date`, `Time.Clock`
and `Time.Nanosecond`. -/
structure Civil where
  year : Nat
  month : Nat
  day : Nat
  hour : Nat
  min : Nat
  sec : Nat
  nsec : Nat
  deriving DecidableEq, Repr

/-- An instant (`time.Time`): its calendar reading in the local zone and in UTC. -/
structure Time where
  loc : Civil
  utc : Civil
  deriving DecidableEq, Repr

/-- Go's `Time.UTC`: the same instant, read in UTC from now on. -/
def Time.UTC (t : Time) : Time := { loc := t.utc, utc := t.utc }

/-- The `io.Writer` values of the program: `os.Stdout` and `os.Stderr`. -/
inductive Writer where
  | stdout
  | stderr
  deriving DecidableEq, Repr

/-- One call of `Write` on a writer: the destination and the bytes handed over. -/
structure WriteCall where
  dst : Writer
  data : String
  deriving DecidableEq, Repr

/-- The environment of the process: the clock (`clock k` is the instant returned by
the `k`-th call of `time.Now`), the number of clock readings made so far, the
directory prefix under which the compiler recorded the source files, and every
`Write` call made so far, oldest first. -/
structure World where
  clock : Nat → Time
  ticks : Nat
  buildRoot : String
  writes : List WriteCall

/-- Go's `time.Now`: read the clock once. -/
def timeNow (w : World) : Time × World :=
  (w.clock w.ticks, { w with ticks := w.ticks + 1 })

/-- A `Write` call on a writer: the bytes are handed to the destination in one
piece.  The error `Write` may return is dropped by every caller in this program. -/
def Writer.Write (o : Writer) (p : String) (w : World) : World :=
  { w with writes := w.writes ++ [{ dst := o, data := p }] }

/-- A source position, as reported by `runtime.Caller`. -/
structure Caller where
  file : String
  line : Nat
  deriving DecidableEq, Repr

/-! ## Package `fmt`, for operands of type `string` -/

/-- The `%!(EXTRA ...)` report of `fmt` for operands no verb consumed. -/
def extraArgs : List String → String
  | [] => ""
  | a :: as =>
    "%!(EXTRA " ++ ", ".intercalate ((a :: as).map (fun x => "string=" ++ x)) ++ ")"

/-- The `printArg` of `fmt` on a `string` operand, for the verbs `s` and `v` and for
the verbs no string accepts (the verbs `q`, `x`, `X` are outside this model). -/
def printArg (arg : String) (verb : Char) : String :=
  if verb = 's' ∨ verb = 'v' then arg
  else "%!" ++ verb.toString ++ "(string=" ++ arg ++ ")"

/-- The `doPrintf` of `fmt` on `string` operands, for directives made of `%` and one
verb character (flags, width, precision and argument indexes are outside this
model): literal text is copied, `%%` is a percent sign, a verb consumes the next
operand, a verb without operand and operands without verb are reported. -/
def doPrintf : List Char → List String → String
  | [], args => extraArgs args
  | [c], args => (if c = '%' then "%!(NOVERB)" else c.toString) ++ extraArgs args
  | c :: verb :: rest, args =>
    if c = '%' then
      if verb = '%' then "%" ++ doPrintf rest args
      else
        match args with
        | [] => "%!" ++ verb.toString ++ "(MISSING)" ++ doPrintf rest []
        | a :: as => printArg a verb ++ doPrintf rest as
    else c.toString ++ doPrintf (verb :: rest) args

/-- Go's `fmt.Sprintf`, on `string` operands. -/
def Sprintf (format : String) (args : List String) : String :=
  doPrintf format.data args

/-- Go's `fmt.Sprintln`, on `string` operands: the operands separated by single
spaces, then a newline. -/
def Sprintln (args : List String) : String :=
  " ".intercalate args ++ "\n"

/-! ## Package `log` -/

def Ldate : Nat := 1
def Ltime : Nat := 2
def Lmicroseconds : Nat := 4
def Llongfile : Nat := 8
def Lshortfile : Nat := 16
def LUTC : Nat := 32
def Lmsgprefix : Nat := 64
def LstdFlags : Nat := Ldate ||| Ltime

/-- A `log.Logger`: its prefix (the field Go calls `prefix`, read by `Prefix()`), its
flag bits, its destination, and its scratch buffer `buf`, which holds the bytes of
the entry written last.  The destination is never `io.Discard`, so the field
`isDiscard` stays 0 and is left out. -/
structure Logger where
  Prefix : String
  flag : Nat
  out : Writer
  buf : String
  deriving DecidableEq, Repr

/-- Go's `log.New`. -/
def logNew (out : Writer) (pfx : String) (flag : Nat) : Logger :=
  { Prefix := pfx, flag := flag, out := out, buf := "" }

/-- Go's `Logger.SetPrefix`. -/
def Logger.SetPrefix (l : Logger) (pfx : String) : Logger :=
  { l with Prefix := pfx }

/-- The decimal digit `d` as a character: Go's `byte('0' + d)`. -/
def digitChar (d : Nat) : Char := Char.ofNat (48 + d)

/-- The loop of `itoa` in `log`, filling the digits right to left:
`for i >= 10 || wid > 1 { wid--; q := i / 10; b[bp] = '0' + i - q*10; bp--; i = q }`,
then `b[bp] = '0' + i`.  The first argument bounds the number of turns. -/
def itoaLoop : Nat → Nat → Int → List Char → List Char
  | 0, i, _, b => digitChar i :: b
  | fuel + 1, i, wid, b =>
    if i ≥ 10 ∨ wid > 1 then
      itoaLoop fuel (i / 10) (wid - 1) (digitChar (i - i / 10 * 10) :: b)
    else digitChar i :: b

/-- The `itoa` of `log`: append `i` in decimal, zero-padded to `wid` digits.  Go fills
an array of 20 bytes, room for every `int`; here the digits are a list.  The loop
takes at most `i + wid` turns, which is the bound handed to `itoaLoop`. -/
def itoa (buf : String) (i : Nat) (wid : Int) : String :=
  buf ++ String.mk (itoaLoop (i + wid.toNat) i wid [])

/-- The text after the last `/` of a list of characters, if it has one. -/
def afterLastSlash : List Char → Option (List Char)
  | [] => none
  | c :: cs =>
    match afterLastSlash cs with
    | some s => some s
    | none => if c = '/' then some cs else none

/-- The file name `formatHeader` prints under `Lshortfile`: what follows the last
`/` found at an index greater than 0. -/
def shortFile (file : String) : String :=
  match file.data with
  | [] => file
  | _ :: rest =>
    match afterLastSlash rest with
    | some s => String.mk s
    | none => file

/-- The date part written by `formatHeader` under `Ldate`. -/
def fmtDate (buf : String) (t : Time) : String :=
  let buf := itoa buf t.loc.year 4
  let buf := buf.push '/'
  let buf := itoa buf t.loc.month 2
  let buf := buf.push '/'
  let buf := itoa buf t.loc.day 2
  buf.push ' '

/-- The time part written by `formatHeader` under `Ltime` or `Lmicroseconds`. -/
def fmtClock (buf : String) (t : Time) (flag : Nat) : String :=
  let buf := itoa buf t.loc.hour 2
  let buf := buf.push ':'
  let buf := itoa buf t.loc.min 2
  let buf := buf.push ':'
  let buf := itoa buf t.loc.sec 2
  let buf := if flag &&& Lmicroseconds ≠ 0 then itoa (buf.push '.') (t.loc.nsec / 1000) 6 else buf
  buf.push ' '

/-- Go's `Logger.formatHeader`: the prefix (unless `Lmsgprefix`), the date, the
time, the file and line, and the prefix (under `Lmsgprefix`), each as its flag bit
asks. -/
def Logger.formatHeader (l : Logger) (buf : String) (t : Time) (file : String)
    (line : Nat) : String :=
  let buf := if l.flag &&& Lmsgprefix = 0 then buf ++ l.Prefix else buf
  let buf :=
    if l.flag &&& (Ldate ||| Ltime ||| Lmicroseconds) ≠ 0 then
      let t := if l.flag &&& LUTC ≠ 0 then t.UTC else t
      let buf := if l.flag &&& Ldate ≠ 0 then fmtDate buf t else buf
      if l.flag &&& (Ltime ||| Lmicroseconds) ≠ 0 then fmtClock buf t l.flag else buf
    else buf
  let buf :=
    if l.flag &&& (Lshortfile ||| Llongfile) ≠ 0 then
      let file := if l.flag &&& Lshortfile ≠ 0 then shortFile file else file
      itoa ((buf ++ file).push ':') line (-1) ++ ": "
    else buf
  if l.flag &&& Lmsgprefix ≠ 0 then buf ++ l.Prefix else buf

/-- Go's `Logger.Output`: read the clock, look the caller up when a file flag is
set, build header and message in the scratch buffer, end it with a newline unless
the message already does, and hand the buffer to the destination in one `Write`.
The argument `site` is what `runtime.Caller(calldepth)` reports. -/
def Logger.Output (l : Logger) (site : Caller) (s : String) (w : World) : Logger × World :=
  let now := timeNow w
  let file := if l.flag &&& (Lshortfile ||| Llongfile) ≠ 0 then site.file else ""
  let line := if l.flag &&& (Lshortfile ||| Llongfile) ≠ 0 then site.line else 0
  let buf := l.formatHeader "" now.1 file line
  let buf := buf ++ s
  let buf := if s.data = [] ∨ s.data.getLast? ≠ some '\n' then buf.push '\n' else buf
  ({ l with buf := buf }, l.out.Write buf now.2)

/-- Go's `Logger.Printf`, called from `site`. -/
def Logger.Printf (l : Logger) (site : Caller) (format : String) (v : List String)
    (w : World) : Logger × World :=
  l.Output site (Sprintf format v) w

/-- Go's `Logger.Println`, called from `site`. -/
def Logger.Println (l : Logger) (site : Caller) (v : List String) (w : World) :
    Logger × World :=
  l.Output site (Sprintln v) w

/-- A non-nil Go `error`, by its message. -/
structure GoError where
  msg : String
  deriving DecidableEq, Repr

/-! ## `internal/etherealvault/etherealvault.go` -/

/-- The `App` struct.  The field `logger` is the logger the pointer leads to: `NewApp`
always allocates one, and the model has no `App` with a nil logger. -/
structure App where
  verbose : Bool
  logger : Logger
  deriving DecidableEq, Repr

/-- The function `NewApp`. -/
def NewApp (verbose : Bool) : App :=
  let app : App := { verbose := verbose, logger := logNew Writer.stdout "" LstdFlags }
  if verbose then
    { app with logger := app.logger.SetPrefix "[DEBUG] " }
  else
    { app with logger := app.logger.SetPrefix "[INFO] " }

/-- What a call of `Run` leaves: the returned `error` (`none` is `nil`), the
receiver after the call, and the environment after the call. -/
structure RunResult where
  err : Option GoError
  app : App
  world : World

/-- The position of line `line` of `etherealvault.go`. -/
def appSite (w : World) (line : Nat) : Caller :=
  { file := w.buildRoot ++ "internal/etherealvault/etherealvault.go", line := line }

/-- The method `App.Run`. -/
def App.Run (a : App) (w : World) : RunResult :=
  let r1 := a.logger.Printf (appSite w 30) "Starting %s processing" ["EtherealVault"] w
  let r2 := r1.1.Println (appSite w 34) ["Processing completed successfully"] r1.2
  { err := none, app := { a with logger := r2.1 }, world := r2.2 }

/-- Calling `Run` `n` times in succession on the same `App`: the returned errors in
call order, the `App` after the last call, the environment after the last call. -/
def runN : Nat → App → World → List (Option GoError) × App × World
  | 0, a, w => ([], a, w)
  | n + 1, a, w =>
    let r := a.Run w
    let rest := runN n r.app r.world
    (r.err :: rest.1, rest.2.1, rest.2.2)

/-! ## The import declarations and the entry point

A Go file that imports a package and refers to none of its exported identifiers
does not compile (`"os" imported and not used`). -/

/-- An import declaration: the import path and the package name it brings into
the file's scope. -/
structure ImportSpec where
  path : String
  name : String
  deriving DecidableEq, Repr

/-- A Go source file, as far as the check of its imports goes: its import
declarations and the qualified identifiers `pkg.Name` of its code, in source
order. -/
structure GoFile where
  importDecls : List ImportSpec
  qualified : List (String × String)
  deriving DecidableEq, Repr

/-- The file `cmd/etherealvault/main.go`: the imports of lines 4 to 10, and the
qualified identifiers of `main`, which are `flag.Bool` (line 13), `flag.Parse`
(line 14), `etherealvault.NewApp` (line 16) and `log.Fatal` (line 18). -/
def mainGo : GoFile :=
  { importDecls :=
      [{ path := "flag", name := "flag" },
       { path := "log", name := "log" },
       { path := "os", name := "os" },
       { path := "etherealvault/internal/etherealvault", name := "etherealvault" }],
    qualified :=
      [("flag", "Bool"), ("flag", "Parse"), ("etherealvault", "NewApp"), ("log", "Fatal")] }

/-- The file `internal/etherealvault/etherealvault.go`: the imports of lines 4 to 7,
and the qualified identifiers `log.Logger` (line 11), `log.New`, `os.Stdout` and
`log.LstdFlags` (line 17). -/
def etherealvaultGo : GoFile :=
  { importDecls := [{ path := "log", name := "log" }, { path := "os", name := "os" }],
    qualified := [("log", "Logger"), ("log", "New"), ("os", "Stdout"), ("log", "LstdFlags")] }

/-- The imports of a file that none of its qualified identifiers refers to. -/
def unusedImports (f : GoFile) : List ImportSpec :=
  f.importDecls.filter (fun i => !(f.qualified.any (fun q => q.1 == i.name)))

/-- The compile errors of the import check. -/
inductive CompileError where
  | importedAndNotUsed (path : String)
  deriving DecidableEq, Repr

/-- The errors the compiler reports on the imports of a file: one for every unused
import. -/
def compileErrors (f : GoFile) : List CompileError :=
  (unusedImports f).map (fun i => CompileError.importedAndNotUsed i.path)

/-- How a process ends: `main` returns, or `os.Exit(code)` is called. -/
inductive Exit where
  | returned
  | exited (code : Nat)
  deriving DecidableEq, Repr

/-- Starting the command whose package `main` is the file `f`, on the arguments
`args`: the file is compiled first; with a compile error there is no process, and
otherwise the process runs `body`, the statements of `main`. -/
def startProgram (f : GoFile) (body : List String → World → Exit × World)
    (args : List String) (w : World) : Except (List CompileError) (Exit × World) :=
  match compileErrors f with
  | [] => .ok (body args w)
  | e :: es => .error (e :: es)

/-! ## Reading the output -/

/-- The timestamp of the standard flags, `2009/11/10 23:00:00`: year, month and day
separated by `/`, a space, hour, minute and second separated by `:`. -/
def stamp (t : Time) : String :=
  itoa "" t.loc.year 4 ++ "/" ++ itoa "" t.loc.month 2 ++ "/" ++ itoa "" t.loc.day 2 ++ " "
    ++ itoa "" t.loc.hour 2 ++ ":" ++ itoa "" t.loc.min 2 ++ ":" ++ itoa "" t.loc.sec 2

/-- The header `Output` puts in front of a message: everything `formatHeader`
writes for logger `l`, caller `site` and instant `t`. -/
def entryHeader (l : Logger) (site : Caller) (t : Time) : String :=
  l.formatHeader "" t
    (if l.flag &&& (Lshortfile ||| Llongfile) ≠ 0 then site.file else "")
    (if l.flag &&& (Lshortfile ||| Llongfile) ≠ 0 then site.line else 0)

/-- The two entries of one `Run` with log prefix `pfx`, the first stamped `t` and
the second `t2`. -/
def runLines (pfx : String) (t t2 : Time) : List WriteCall :=
  [{ dst := Writer.stdout, data := pfx ++ stamp t ++ " Starting EtherealVault processing\n" },
   { dst := Writer.stdout, data := pfx ++ stamp t2 ++ " Processing completed successfully\n" }]

/-- A sample instant: 10 November 2009, 23:00:00 local time. -/
def sampleTime : Time :=
  { loc := ⟨2009, 11, 10, 23, 0, 0, 0⟩, utc := ⟨2009, 11, 10, 22, 0, 0, 0⟩ }

/-- A sample environment: a clock that advances one second per reading, nothing
written yet. -/
def sampleWorld : World :=
  { clock := fun k => { sampleTime with loc := { sampleTime.loc with sec := k } },
    ticks := 0, buildRoot := "/src/", writes := [] }

/-! ## Lemmas on strings and on the header -/

theorem Sprintf_start :
    Sprintf "Starting %s processing" ["EtherealVault"] = "Starting EtherealVault processing" := by
  decide

theorem Sprintln_done :
    Sprintln ["Processing completed successfully"] = "Processing completed successfully\n" := by
  decide

/-- Under the standard flags the header is the prefix, the timestamp and a space. -/
theorem entryHeader_std (l : Logger) (site : Caller) (t : Time) (hf : l.flag = LstdFlags) :
    entryHeader l site t = l.Prefix ++ stamp t ++ " " := by
  have h1 : LstdFlags &&& Lmsgprefix = 0 := by decide
  have h2 : LstdFlags &&& (Ldate ||| Ltime ||| Lmicroseconds) ≠ 0 := by decide
  have h3 : ¬ (LstdFlags &&& LUTC ≠ 0) := by decide
  have h4 : LstdFlags &&& Ldate ≠ 0 := by decide
  have h5 : LstdFlags &&& (Ltime ||| Lmicroseconds) ≠ 0 := by decide
  have h6 : ¬ (LstdFlags &&& Lmicroseconds ≠ 0) := by decide
  have h7 : ¬ (LstdFlags &&& (Lshortfile ||| Llongfile) ≠ 0) := by decide
  simp only [entryHeader, Logger.formatHeader, hf, fmtDate, fmtClock, stamp, h1, h2, h3, h4,
    h5, h6, h7, if_true, if_false, ne_eq, not_false_eq_true, not_true_eq_false]
  apply String.ext
  simp [itoa, String.data_append, String.data_push]

/-! ## Lemmas on `Output`, `Run` and `runN` -/

theorem Output_world (l : Logger) (site : Caller) (s : String) (w : World) :
    (l.Output site s w).2 =
      { clock := w.clock, ticks := w.ticks + 1, buildRoot := w.buildRoot,
        writes := w.writes ++ [{ dst := l.out, data :=
          (if s.data = [] ∨ s.data.getLast? ≠ some '\n' then
            (entryHeader l site (w.clock w.ticks) ++ s).push '\n'
          else entryHeader l site (w.clock w.ticks) ++ s) }] } := rfl

theorem Output_logger (l : Logger) (site : Caller) (s : String) (w : World) :
    (l.Output site s w).1 = { l with buf := (l.Output site s w).1.buf } := rfl

/-- The environment after one `Run` of any `App`. -/
theorem Run_world (a : App) (w : World) :
    (a.Run w).world =
      { clock := w.clock, ticks := w.ticks + 2, buildRoot := w.buildRoot,
        writes := w.writes ++
          [{ dst := a.logger.out, data := entryHeader a.logger (appSite w 30) (w.clock w.ticks)
              ++ "Starting EtherealVault processing\n" },
           { dst := a.logger.out, data := entryHeader a.logger (appSite w 34)
              (w.clock (w.ticks + 1)) ++ "Processing completed successfully\n" }] } := by
  have e1 : ("Starting EtherealVault processing".data = [] ∨
      "Starting EtherealVault processing".data.getLast? ≠ some '\n') := by decide
  have e2 : ¬ ("Processing completed successfully\n".data = [] ∨
      "Processing completed successfully\n".data.getLast? ≠ some '\n') := by decide
  have e3 : ∀ h : String, (h ++ "Starting EtherealVault processing").push '\n'
      = h ++ "Starting EtherealVault processing\n" := by
    intro h
    apply String.ext
    simp [String.data_append, String.data_push]
  simp only [App.Run, Logger.Printf, Logger.Println, Output_world, Sprintf_start, Sprintln_done,
    e1, e2, e3, if_true, if_false]
  simp [Logger.Output, Logger.formatHeader, entryHeader, appSite, timeNow, List.append_assoc]

theorem Run_err (a : App) (w : World) : (a.Run w).err = none := rfl

/-- One `Run` rewrites the scratch buffer of the logger and nothing else of the
`App`. -/
theorem Run_app (a : App) (w : World) :
    (a.Run w).app = { a with logger := { a.logger with buf := (a.Run w).app.logger.buf } } := rfl

/-- The environment after one `Run` of an `App` whose logger has the standard flags
and writes to standard output. -/
theorem Run_world_std (a : App) (w : World) (hf : a.logger.flag = LstdFlags)
    (ho : a.logger.out = Writer.stdout) :
    (a.Run w).world =
      { clock := w.clock, ticks := w.ticks + 2, buildRoot := w.buildRoot,
        writes := w.writes ++
          runLines a.logger.Prefix (w.clock w.ticks) (w.clock (w.ticks + 1)) } := by
  have e1 : ∀ h : String, h ++ " " ++ "Starting EtherealVault processing\n"
      = h ++ " Starting EtherealVault processing\n" := by
    intro h
    apply String.ext
    simp [String.data_append]
  have e2 : ∀ h : String, h ++ " " ++ "Processing completed successfully\n"
      = h ++ " Processing completed successfully\n" := by
    intro h
    apply String.ext
    simp [String.data_append]
  rw [Run_world, entryHeader_std _ _ _ hf, entryHeader_std _ _ _ hf, ho]
  simp only [runLines, e1, e2]

theorem NewApp_flag (v : Bool) : (NewApp v).logger.flag = LstdFlags := by
  cases v <;> rfl

theorem NewApp_out (v : Bool) : (NewApp v).logger.out = Writer.stdout := by
  cases v <;> rfl

theorem NewApp_Prefix (v : Bool) :
    (NewApp v).logger.Prefix = if v then "[DEBUG] " else "[INFO] " := by
  cases v <;> rfl

/-- The fields `verbose`, `Prefix`, `flag` and `out` after `n` calls of `Run`. -/
theorem runN_frame (n : Nat) : ∀ (a : App) (w : World),
    (runN n a w).2.1.verbose = a.verbose ∧ (runN n a w).2.1.logger.Prefix = a.logger.Prefix
      ∧ (runN n a w).2.1.logger.flag = a.logger.flag
      ∧ (runN n a w).2.1.logger.out = a.logger.out := by
  induction n with
  | zero => intro a w; exact ⟨rfl, rfl, rfl, rfl⟩
  | succ n ih =>
    intro a w
    have h := ih (a.Run w).app (a.Run w).world
    exact h

/-- Every one of `n` calls of `Run` returns `nil`. -/
theorem runN_errs (n : Nat) : ∀ (a : App) (w : World),
    (runN n a w).1 = List.replicate n none := by
  induction n with
  | zero => intro a w; rfl
  | succ n ih =>
    intro a w
    show (a.Run w).err :: (runN n (a.Run w).app (a.Run w).world).1 = _
    rw [ih, Run_err]
    rfl

/-- The environment after `n` calls of `Run` on an `App` whose logger has the
standard flags and writes to standard output. -/
theorem runN_world_std (n : Nat) : ∀ (a : App) (w : World),
    a.logger.flag = LstdFlags → a.logger.out = Writer.stdout →
    (runN n a w).2.2 =
      { clock := w.clock, ticks := w.ticks + 2 * n, buildRoot := w.buildRoot,
        writes := w.writes ++ (List.range n).flatMap (fun k =>
          runLines a.logger.Prefix (w.clock (w.ticks + 2 * k))
            (w.clock (w.ticks + 2 * k + 1))) } := by
  induction n with
  | zero => intro a w _ _; cases w; simp [runN]
  | succ n ih =>
    intro a w hf ho
    show (runN n (a.Run w).app (a.Run w).world).2.2 = _
    have hf2 : (a.Run w).app.logger.flag = LstdFlags := hf
    have ho2 : (a.Run w).app.logger.out = Writer.stdout := ho
    have hp2 : (a.Run w).app.logger.Prefix = a.logger.Prefix := rfl
    rw [ih _ _ hf2 ho2, Run_world_std a w hf ho, hp2, List.range_succ_eq_map]
    simp only [List.flatMap_cons, List.flatMap_map, List.append_assoc, Nat.mul_zero,
      Nat.add_zero, Function.comp]
    have e1 : ∀ k, w.ticks + 2 + 2 * k = w.ticks + 2 * (k + 1) := by intro k; omega
    have e2 : w.ticks + 2 + 2 * n = w.ticks + 2 * (n + 1) := by omega
    simp only [e1, e2, Nat.succ_eq_add_one]

/-- The bound `i + wid` handed to `itoaLoop` never cuts the loop short: any two
bounds at least that large give the same digits. -/
theorem itoaLoop_fuel (fuel : Nat) : ∀ (fuel2 i : Nat) (wid : Int) (b : List Char),
    i + wid.toNat ≤ fuel → i + wid.toNat ≤ fuel2 →
    itoaLoop fuel i wid b = itoaLoop fuel2 i wid b := by
  induction fuel with
  | zero =>
    intro fuel2 i wid b h1 _
    have hi : i = 0 := by omega
    have hw : ¬ (wid > 1) := by omega
    subst hi
    cases fuel2 with
    | zero => rfl
    | succ k => simp [itoaLoop, hw]
  | succ n ih =>
    intro fuel2 i wid b h1 h2
    by_cases hc : i ≥ 10 ∨ wid > 1
    · have h3 : i / 10 + (wid - 1).toNat ≤ n := by omega
      cases fuel2 with
      | zero => omega
      | succ k =>
        have h4 : i / 10 + (wid - 1).toNat ≤ k := by omega
        simp only [itoaLoop, hc, if_true]
        exact ih k (i / 10) (wid - 1) _ h3 h4
    · cases fuel2 with
      | zero =>
        simp only [itoaLoop]
        rw [if_neg hc]
      | succ k =>
        simp only [itoaLoop]
        rw [if_neg hc, if_neg hc]

/-! ## Sample runs -/

/-- A logger with every flag bit set: UTC time with microseconds, the short file
name and line of the call, and the prefix right before the message. -/
theorem sample_all_flags :
    (App.Run (App.mk true ⟨"p: ", 127, Writer.stderr, ""⟩) sampleWorld).world.writes =
      [{ dst := Writer.stderr,
         data := "2009/11/10 22:00:00.000000 etherealvault.go:30: p: Starting EtherealVault processing\n" },
       { dst := Writer.stderr,
         data := "2009/11/10 22:00:00.000000 etherealvault.go:34: p: Processing completed successfully\n" }] := by
  decide

/-! ## The claims -/

/-- C1: for every boolean `v`, the logger of `NewApp v` has prefix exactly
`"[DEBUG] "` when `v` is true and exactly `"[INFO] "` when `v` is false. -/
theorem NewApp_Prefix_by_verbose (v : Bool) :
    (NewApp v).logger.Prefix = (if v then "[DEBUG] " else "[INFO] ")
      ∧ (NewApp true).logger.Prefix = "[DEBUG] " ∧ (NewApp false).logger.Prefix = "[INFO] " :=
  ⟨NewApp_Prefix v, rfl, rfl⟩

/-- C2: `Run` returns `nil` on `NewApp v` for every boolean `v` and every
environment, and more generally on every `App` in every environment: no input or
state makes it return an error. -/
theorem Run_returns_nil :
    (∀ (v : Bool) (w : World), (App.Run (NewApp v) w).err = none)
      ∧ (∀ (a : App) (w : World), (a.Run w).err = none) :=
  ⟨fun v w => Run_err (NewApp v) w, Run_err⟩

/-- C3: one `Run` on `NewApp v` adds exactly two `Write` calls on the logger's
destination (standard output) to those made before: first the header followed by
the message `Starting EtherealVault processing` and a newline, then the header
followed by the message `Processing completed successfully` and a newline. -/
theorem Run_emits_two_lines (v : Bool) (w : World) :
    (App.Run (NewApp v) w).world.writes = w.writes ++
      [{ dst := (NewApp v).logger.out,
         data := entryHeader (NewApp v).logger (appSite w 30) (w.clock w.ticks)
           ++ "Starting EtherealVault processing" ++ "\n" },
       { dst := (NewApp v).logger.out,
         data := entryHeader (NewApp v).logger (appSite w 34) (w.clock (w.ticks + 1))
           ++ "Processing completed successfully" ++ "\n" }]
      ∧ (NewApp v).logger.out = Writer.stdout
      ∧ ((App.Run (NewApp v) w).world.writes.drop w.writes.length).length = 2 := by
  have e1 : ∀ h : String, h ++ "Starting EtherealVault processing" ++ "\n"
      = h ++ "Starting EtherealVault processing\n" := by
    intro h
    apply String.ext
    simp [String.data_append]
  have e2 : ∀ h : String, h ++ "Processing completed successfully" ++ "\n"
      = h ++ "Processing completed successfully\n" := by
    intro h
    apply String.ext
    simp [String.data_append]
  refine ⟨?_, NewApp_out v, ?_⟩
  · rw [Run_world, e1, e2]
  · rw [Run_world]
    simp

/-- C4: the runs of `NewApp true` and `NewApp false` from the same environment return
the same result (`nil`), and each adds two entries to standard output; the entries
at the same position are the same text after the prefix, `"[DEBUG] "` in the first
run and `"[INFO] "` in the second. -/
theorem verbose_changes_only_prefix (w : World) :
    (App.Run (NewApp true) w).err = (App.Run (NewApp false) w).err
      ∧ (App.Run (NewApp true) w).err = none
      ∧ (App.Run (NewApp true) w).world.writes = w.writes ++
        [{ dst := Writer.stdout, data := "[DEBUG] " ++
            (stamp (w.clock w.ticks) ++ " Starting EtherealVault processing\n") },
         { dst := Writer.stdout, data := "[DEBUG] " ++
            (stamp (w.clock (w.ticks + 1)) ++ " Processing completed successfully\n") }]
      ∧ (App.Run (NewApp false) w).world.writes = w.writes ++
        [{ dst := Writer.stdout, data := "[INFO] " ++
            (stamp (w.clock w.ticks) ++ " Starting EtherealVault processing\n") },
         { dst := Writer.stdout, data := "[INFO] " ++
            (stamp (w.clock (w.ticks + 1)) ++ " Processing completed successfully\n") }]
      ∧ (App.Run (NewApp true) w).world.ticks = (App.Run (NewApp false) w).world.ticks := by
  have ht := Run_world_std _ w (NewApp_flag true) (NewApp_out true)
  have hf := Run_world_std _ w (NewApp_flag false) (NewApp_out false)
  refine ⟨?_, Run_err _ w, ?_, ?_, ?_⟩
  · rw [Run_err, Run_err]
  · rw [ht]
    simp [runLines, NewApp_Prefix, String.append_assoc]
  · rw [hf]
    simp [runLines, NewApp_Prefix, String.append_assoc]
  · rw [ht, hf]

/-- C5: for every boolean `v` and every `n`, calling `Run` `n` times in succession on
`NewApp v` returns `nil` each time and adds `n` repetitions of the single-call
pattern `runLines` to the output, the `k`-th stamped with the clock readings
`2k` and `2k + 1` after the start; a single call adds the pattern once. -/
theorem Run_repeatable (v : Bool) (n : Nat) (w : World) :
    (runN n (NewApp v) w).1 = List.replicate n none
      ∧ (runN n (NewApp v) w).2.2.writes = w.writes ++ (List.range n).flatMap (fun k =>
          runLines (if v then "[DEBUG] " else "[INFO] ") (w.clock (w.ticks + 2 * k))
            (w.clock (w.ticks + 2 * k + 1)))
      ∧ (App.Run (NewApp v) w).world.writes = w.writes ++
          runLines (if v then "[DEBUG] " else "[INFO] ") (w.clock w.ticks)
            (w.clock (w.ticks + 1)) := by
  refine ⟨runN_errs n _ w, ?_, ?_⟩
  · rw [runN_world_std n _ w (NewApp_flag v) (NewApp_out v), NewApp_Prefix]
  · rw [Run_world_std _ w (NewApp_flag v) (NewApp_out v), NewApp_Prefix]

/-- C6: package `main` does not compile: `main.go` imports `os` (line 7) and none of
its statements refers to it, while every import of `etherealvault.go` is used; so
for every argument list, whatever the statements of `main` do, starting the
command yields the compile error and no process: there is no run that ends
normally after two log lines. -/
theorem main_go_does_not_compile :
    unusedImports mainGo = [{ path := "os", name := "os" }]
      ∧ compileErrors mainGo = [CompileError.importedAndNotUsed "os"]
      ∧ compileErrors etherealvaultGo = []
      ∧ (∀ (body : List String → World → Exit × World) (args : List String) (w : World),
          startProgram mainGo body args w
            = .error [CompileError.importedAndNotUsed "os"]) := by
  refine ⟨by decide, by decide, by decide, ?_⟩
  intro body args w
  rfl

/-- C7: started with no arguments and started with the single argument
`--verbose=false`, the command yields the compile error of `main.go` both times,
whatever the statements of `main` do: no `App` is constructed and nothing is
written in either case. -/
theorem default_arguments_start_no_process
    (body : List String → World → Exit × World) (w : World) :
    startProgram mainGo body [] w = .error [CompileError.importedAndNotUsed "os"]
      ∧ startProgram mainGo body ["--verbose=false"] w
          = .error [CompileError.importedAndNotUsed "os"] :=
  ⟨rfl, rfl⟩

/-- C8: `NewApp v` stores `v` in the field `verbose`, with the standard flags and
standard output in its logger; after any number `n` of calls of `Run` the field
`verbose` and the logger's prefix, flags and destination are what they were right
after `NewApp v`. -/
theorem configuration_is_immutable (v : Bool) (n : Nat) (w : World) :
    (NewApp v).verbose = v
      ∧ (NewApp v).logger.flag = LstdFlags
      ∧ (NewApp v).logger.out = Writer.stdout
      ∧ (runN n (NewApp v) w).2.1.verbose = (NewApp v).verbose
      ∧ (runN n (NewApp v) w).2.1.logger.Prefix = (NewApp v).logger.Prefix
      ∧ (runN n (NewApp v) w).2.1.logger.flag = (NewApp v).logger.flag
      ∧ (runN n (NewApp v) w).2.1.logger.out = (NewApp v).logger.out := by
  refine ⟨?_, NewApp_flag v, NewApp_out v, runN_frame n (NewApp v) w⟩
  cases v <;> rfl

/-- C9: each entry written by `Run` on `NewApp v` is the prefix, then the timestamp
of the instant read for that entry, then one space, the message and one newline,
for the message built by `Printf` (no newline of its own) and for the one built by
`Println` (which ends in a newline); on the sample environment the two entries
read as shown. -/
theorem Run_line_layout (v : Bool) (w : World) :
    (App.Run (NewApp v) w).world.writes = w.writes ++
      [{ dst := Writer.stdout, data := (NewApp v).logger.Prefix ++ stamp (w.clock w.ticks)
          ++ " Starting EtherealVault processing\n" },
       { dst := Writer.stdout, data := (NewApp v).logger.Prefix
          ++ stamp (w.clock (w.ticks + 1)) ++ " Processing completed successfully\n" }]
      ∧ (App.Run (NewApp false) sampleWorld).world.writes =
        [{ dst := Writer.stdout,
           data := "[INFO] 2009/11/10 23:00:00 Starting EtherealVault processing\n" },
         { dst := Writer.stdout,
           data := "[INFO] 2009/11/10 23:00:01 Processing completed successfully\n" }]
      ∧ Sprintf "Starting %s processing" ["EtherealVault"] = "Starting EtherealVault processing"
      ∧ Sprintln ["Processing completed successfully"] = "Processing completed successfully\n" := by
  refine ⟨?_, by decide, Sprintf_start, Sprintln_done⟩
  rw [Run_world_std _ w (NewApp_flag v) (NewApp_out v)]
  rfl

/-- C10: `Run` does not read the field `verbose`: two `App` values whose loggers
agree on prefix, flags and destination get the same result and leave the same
environment (the same output) from the same start, whatever their `verbose`
fields and scratch buffers are. -/
theorem Run_ignores_verbose (a b : App) (w : World)
    (hp : a.logger.Prefix = b.logger.Prefix) (hf : a.logger.flag = b.logger.flag)
    (ho : a.logger.out = b.logger.out) :
    (a.Run w).err = (b.Run w).err ∧ (a.Run w).world = (b.Run w).world := by
  refine ⟨by rw [Run_err, Run_err], ?_⟩
  rw [Run_world, Run_world]
  simp only [entryHeader, Logger.formatHeader, hp, hf, ho]

/-- C10 at a concrete input: a verbose and a non-verbose `App` sharing a logger with
prefix `"p: "`, all flag bits set, writing to standard error. -/
theorem Run_ignores_verbose_witness :
    (App.mk true ⟨"p: ", 127, Writer.stderr, "x"⟩).verbose
        ≠ (App.mk false ⟨"p: ", 127, Writer.stderr, ""⟩).verbose
      ∧ (App.Run (App.mk true ⟨"p: ", 127, Writer.stderr, "x"⟩) sampleWorld).err
        = (App.Run (App.mk false ⟨"p: ", 127, Writer.stderr, ""⟩) sampleWorld).err
      ∧ (App.Run (App.mk true ⟨"p: ", 127, Writer.stderr, "x"⟩) sampleWorld).world
        = (App.Run (App.mk false ⟨"p: ", 127, Writer.stderr, ""⟩) sampleWorld).world :=
  ⟨by decide,
   Run_ignores_verbose (App.mk true ⟨"p: ", 127, Writer.stderr, "x"⟩)
     (App.mk false ⟨"p: ", 127, Writer.stderr, ""⟩) sampleWorld rfl rfl rfl⟩

end EtherealVault
